import Mathlib

/-!
# Verification of the mn-driver-portal Web Push client

Shallow embedding of the repository's two source files:

* `src/static/push.js` — foreground subscription manager
  (`registerSW`, `urlBase64ToUint8Array`, `subscribePush`, `postJSON`,
  `MNPush.enable`, `MNPush.disable`);
* `src/unnamed/part_000` — the service worker (`push` and
  `notificationclick` event listeners).

Conventions of the embedding:

* JavaScript strings are modelled as Lean `String`s (sequences of
  characters); `s.length` is the character count, which agrees with the
  JavaScript `length` for all strings of Basic-Multilingual-Plane
  characters (every string relevant here).
* JSON numbers are modelled as integers (`Int`); no claim depends on
  fractional values or NaN.
* A JavaScript value that may be `undefined` is an `Option JsonValue`,
  with `none` playing the role of `undefined`.
* Platform primitives (the push manager, `fetch`, `JSON.parse`,
  `Notification.requestPermission`) are external: their outcomes are
  fields of an explicit `World` state or inputs to the handler, and the
  observable effects the code triggers are recorded in an event trace.
-/

namespace MN

/-! ## JavaScript / JSON value model -/

/-- A JSON value, as produced by the platform's `JSON.parse`
(`PushMessageData.json()`). Numbers are modelled as integers. -/
inductive JsonValue where
  | null
  | bool (b : Bool)
  | num (n : Int)
  | str (s : String)
  | arr (elems : List JsonValue)
  | obj (fields : List (String × JsonValue))
deriving Repr

/-- JavaScript truthiness of a possibly-`undefined` value (`none` =
`undefined`). Arrays and objects are always truthy; `null`, `false`,
`0` and `""` are falsy. -/
def jsTruthy : Option JsonValue → Bool
  | none => false
  | some .null => false
  | some (.bool b) => b
  | some (.num n) => n != 0
  | some (.str s) => s != ""
  | some (.arr _) => true
  | some (.obj _) => true

/-- JavaScript property access `v.k` for the data-carrying fields the
worker reads (`title`, `body`, `data`, `url`). Access on `undefined` or
`null` throws a `TypeError`; on an object it yields the field's value or
`undefined`; on any other value these particular properties are
`undefined` (they are not on the primitive or array prototypes). -/
def jsGetProp : Option JsonValue → String → Except String (Option JsonValue)
  | none, _ => .error "TypeError"
  | some .null, _ => .error "TypeError"
  | some (.obj fs), k => .ok (fs.lookup k)
  | some _, _ => .ok none

/-! ## VAPID key decoding (src/static/push.js, lines 6–13)

`urlBase64ToUint8Array` pads the input to a multiple of four characters
with `=`, maps the URL-safe alphabet back to the standard one, and calls
the platform's `atob`. `atob` implements the WHATWG forgiving-base64
decode: strip ASCII whitespace; if the length is a multiple of four,
drop one or two trailing `=`; fail if the remaining length is 1 mod 4 or
any character is outside the base64 alphabet; otherwise decode, with
trailing bits of a final partial group discarded. A `none` result models
the `InvalidCharacterError` exception `atob` throws. -/

/-- The standard base64 alphabet, in index order. -/
def b64Alphabet : List Char :=
  "ABCDEFGHIJKLMNOPQRSTUVWXYZabcdefghijklmnopqrstuvwxyz0123456789+/".data

/-- Position of the first occurrence of `c` in `l`. -/
def posIn : List Char → Char → Option Nat
  | [], _ => none
  | a :: as, c => if c = a then some 0 else (posIn as c).map (· + 1)

/-- Index of a character in the standard base64 alphabet, `none` for
characters outside it. -/
def b64Index (c : Char) : Option Nat := posIn b64Alphabet c

/-- Alphabet lookup over a whole string: `some` of the index list when
every character is in the alphabet, `none` otherwise. -/
def b64Indices : List Char → Option (List Nat)
  | [] => some []
  | c :: cs =>
    match b64Index c, b64Indices cs with
    | some i, some is => some (i :: is)
    | _, _ => none

/-- Reassemble 6-bit groups into bytes: four groups give three bytes, a
final group of two or three gives one or two bytes (low bits dropped). -/
def b64decodeBody : List Nat → List Nat
  | a :: b :: c :: d :: rest =>
    (a * 4 + b / 16) :: ((b % 16) * 16 + c / 4) :: ((c % 4) * 64 + d) ::
      b64decodeBody rest
  | [a, b] => [a * 4 + b / 16]
  | [a, b, c] => [a * 4 + b / 16, (b % 16) * 16 + c / 4]
  | _ => []

/-- ASCII whitespace stripped by forgiving-base64 decode. -/
def isB64Ws (c : Char) : Bool :=
  c = '\t' || c = '\n' || c = '\x0c' || c = '\r' || c = ' '

/-- Remove one or two leading `=` characters (never more); applied to
the reversed input, this is the trailing-padding removal of
forgiving-base64. -/
def dropEq2 : List Char → List Char
  | c1 :: c2 :: r =>
    if c1 = '=' then (if c2 = '=' then r else c2 :: r) else c1 :: c2 :: r
  | [c1] => if c1 = '=' then [] else [c1]
  | [] => []

/-- When the length is a multiple of four, remove one or two trailing
`=` characters (never more). -/
def stripPad (l : List Char) : List Char :=
  if l.length % 4 = 0 then (dropEq2 l.reverse).reverse else l

/-- The length-and-alphabet check and 6-bit-group decode that follow
whitespace removal in forgiving-base64. -/
def atobStripped (l : List Char) : Option (List Nat) :=
  if (stripPad l).length % 4 = 1 then none
  else (b64Indices (stripPad l)).map b64decodeBody

/-- The platform's `atob` on a character list (forgiving-base64 decode);
yields the byte values of the resulting binary string. -/
def atobChars (l : List Char) : Option (List Nat) :=
  atobStripped (l.filter (fun c => !isB64Ws c))

/-- The platform's `atob`. -/
def atob (s : String) : Option (List Nat) := atobChars s.data

/-- The second and third `replace` of the source: URL-safe alphabet back
to the standard one (`-` to `+`, `_` to `/`). -/
def urlChar (c : Char) : Char :=
  if c = '-' then '+' else if c = '_' then '/' else c

/-- `urlBase64ToUint8Array` (src/static/push.js, lines 6–13): pad with
`=` to a multiple of four characters (`padding`), substitute the
URL-safe alphabet back (the two `replace` calls, fused into one map —
`-` is never produced by the first), decode with `atob`, and return the
byte array. -/
def urlBase64ToUint8Array (s : String) : Option (List Nat) :=
  atob (String.mk ((s.data ++ List.replicate ((4 - s.length % 4) % 4) '=').map urlChar))

/-- The substitution applied when forming the base64url rendering of a
standard-base64 string (`+` to `-`, `/` to `_`). -/
def stdToUrlChar (c : Char) : Char :=
  if c = '+' then '-' else if c = '/' then '_' else c

/-! ## Service worker: `push` event listener (src/unnamed/part_000, lines 9–20) -/

/-- The data attached to a push event, when present: `text` is the raw
payload text (`event.data.text()`), and `json` is the outcome of the
platform's `event.data.json()` — `JSON.parse` of that text, which either
yields a JSON value or throws a `SyntaxError`. -/
structure PushEventData where
  text : String
  json : Except Unit JsonValue

/-- The notification the worker asks the platform to display
(`self.registration.showNotification(title, options)`). `title`, `body`
and `data` carry the raw JavaScript values the code passes. -/
structure NotificationRec where
  title : Option JsonValue
  body : Option JsonValue
  icon : String
  badge : String
  data : Option JsonValue
deriving Repr

def defaultTitle : String := "M&N Driver Portal"

/-- The `push` event listener. `eventData` is `event.data` (`none` when
the push carried no data, in which case `event.data.json()` throws a
`TypeError` and the ternary `event.data ? event.data.text() : ""`
yields `""`). A `.error` result models an uncaught exception escaping
the listener. -/
def pushHandler (eventData : Option PushEventData) : Except String NotificationRec :=
  -- try { data = event.data.json(); }
  -- catch(e) { data = { title: "M&N Driver Portal",
  --                     body: event.data ? event.data.text() : "" }; }
  let data : Option JsonValue :=
    match eventData with
    | none => some (.obj [("title", .str defaultTitle), ("body", .str "")])
    | some d =>
      match d.json with
      | .ok v => some v
      | .error _ => some (.obj [("title", .str defaultTitle), ("body", .str d.text)])
  do
    -- const title = data.title || "M&N Driver Portal";
    let t ← jsGetProp data "title"
    let title := if jsTruthy t then t else some (.str defaultTitle)
    -- body: data.body || "", icon, badge, data: data.data || {}
    let b ← jsGetProp data "body"
    let body := if jsTruthy b then b else some (.str "")
    let dd ← jsGetProp data "data"
    let ndata := if jsTruthy dd then dd else some (.obj [])
    pure { title := title, body := body,
           icon := "/static/logo.png", badge := "/static/logo.png",
           data := ndata }

/-- Is the value a JavaScript string? -/
def isJsStr : Option JsonValue → Bool
  | some (.str _) => true
  | _ => false

/-! ## Subscription manager (src/static/push.js)

The platform (service-worker container, push manager, `fetch`) is an
explicit `World`; each async function of the source becomes a function
from `World` to a result, the updated `World`, and the trace of
observable platform effects it triggered, in order. -/

/-- A push subscription as serialised to the server
(`\x7bendpoint, keys: \x7bp256dh, auth\x7d\x7d`); the platform owns it. -/
structure Subscription where
  endpoint : String
  p256dh : String
  auth : String
deriving DecidableEq, Repr

/-- An HTTP response as seen through `fetch`: `res.ok` is `status` in
200–299, `res.text()` is `text`, and `res.json()` succeeds with
`jsonBody` when the body is JSON (`none` models a parse failure, which
`postJSON` converts to the empty object). -/
structure HttpResp where
  status : Nat
  text : String
  jsonBody : Option JsonValue

/-- `res.ok`: status in the 2xx range. -/
def respOk (r : HttpResp) : Bool := 200 ≤ r.status && r.status ≤ 299

/-- The platform state an invocation runs against: whether the host
supports service workers, the outcome the permission prompt would
produce, the current push subscription (if any), the subscription the
push manager would mint on `subscribe`, and the server's response to a
POST at each path. -/
structure World where
  swSupported : Bool
  permission : String
  sub : Option Subscription
  freshSub : Subscription
  respond : String → HttpResp

/-- Observable platform effects, in the order the code triggers them. -/
inductive Ev where
  | register
  | requestPermission
  | getSubscription
  | subscribe (key : List Nat)
  | post (url : String) (body : Subscription)
  | pushUnsubscribe
deriving DecidableEq, Repr

/-- `registerSW` (lines 1–4): `null` when the host lacks service-worker
support, otherwise the (opaque) registration. -/
def registerSW (w : World) : Option Unit × World × List Ev :=
  if w.swSupported then (some (), w, [Ev.register]) else (none, w, [])

/-- `subscribePush` (lines 15–29): register the worker (throw if
unsupported), request permission (throw unless granted), reuse an
existing subscription, otherwise subscribe with the decoded VAPID key
(whose decoding failure — `atob`'s `InvalidCharacterError` — escapes). -/
def subscribePush (vapidPublicKey : String) (w : World) :
    Except String Subscription × World × List Ev :=
  match registerSW w with
  | (none, w1, t1) => (.error "Service Worker not supported", w1, t1)
  | (some _, w1, t1) =>
    let t2 := t1 ++ [Ev.requestPermission]
    if w1.permission ≠ "granted" then
      (.error "Notifications permission not granted", w1, t2)
    else
      let t3 := t2 ++ [Ev.getSubscription]
      match w1.sub with
      | some existing => (.ok existing, w1, t3)
      | none =>
        match urlBase64ToUint8Array vapidPublicKey with
        | none => (.error "InvalidCharacterError", w1, t3)
        | some key =>
          (.ok w1.freshSub, { w1 with sub := some w1.freshSub },
           t3 ++ [Ev.subscribe key])

/-- `postJSON` (lines 31–42): POST the JSON-serialised body; on a
non-2xx response throw the body text (or a generic message when it is
empty); on success return the response JSON, or the empty object when
the body is not JSON. -/
def postJSON (url : String) (data : Subscription) (w : World) :
    Except String JsonValue × World × List Ev :=
  let res := w.respond url
  if respOk res then
    (.ok (res.jsonBody.getD (.obj [])), w, [Ev.post url data])
  else
    (.error (if res.text = "" then "Request failed" else res.text), w,
     [Ev.post url data])

/-- `MNPush.enable` (lines 45–49): subscribe, POST the subscription to
`/push/subscribe`, return `true`; any error propagates. -/
def enable (vapidPublicKey : String) (w : World) :
    Except String Bool × World × List Ev :=
  match subscribePush vapidPublicKey w with
  | (.error e, w1, t1) => (.error e, w1, t1)
  | (.ok sub, w1, t1) =>
    let (r2, w2, t2) := postJSON "/push/subscribe" sub w1
    (r2.map (fun _ => true), w2, t1 ++ t2)

/-- `MNPush.disable` (lines 50–59): succeed trivially without a
registration or without a subscription; otherwise POST the subscription
to `/push/unsubscribe` and, only once that succeeded, revoke it at the
platform. -/
def disable (w : World) : Except String Bool × World × List Ev :=
  match registerSW w with
  | (none, w1, t1) => (.ok true, w1, t1)
  | (some _, w1, t1) =>
    let t2 := t1 ++ [Ev.getSubscription]
    match w1.sub with
    | none => (.ok true, w1, t2)
    | some s =>
      match postJSON "/push/unsubscribe" s w1 with
      | (.error e, w2, t3) => (.error e, w2, t2 ++ t3)
      | (.ok _, w2, t3) =>
        (.ok true, { w2 with sub := none }, t2 ++ t3 ++ [Ev.pushUnsubscribe])

/-- The JSON bodies POSTed to `url` in a trace, in order. -/
def postedBodies (url : String) (tr : List Ev) : List Subscription :=
  tr.filterMap fun e =>
    match e with
    | .post u b => if u = url then some b else none
    | _ => none

/-- Did the trace create a platform subscription? -/
def subscribed (tr : List Ev) : Bool :=
  tr.any fun e =>
    match e with
    | .subscribe _ => true
    | _ => false

/-! ## Service worker: `notificationclick` listener (src/unnamed/part_000, lines 22–33) -/

/-- Does `pat` lead the list `l`? -/
def leadsWith : List Char → List Char → Bool
  | [], _ => true
  | _ :: _, [] => false
  | p :: ps, c :: cs => p = c && leadsWith ps cs

/-- Does `l` contain `pat` as a contiguous run? -/
def containsSeq (l pat : List Char) : Bool :=
  leadsWith pat l ||
    match l with
    | [] => false
    | _ :: cs => containsSeq cs pat

/-- JavaScript `s.includes(pat)`: substring containment. -/
def strIncludes (s pat : String) : Bool := containsSeq s.data pat.data

/-- JavaScript string conversion (`String(v)`) for the JSON-shaped
values a notification's `data.url` can hold: arrays join their
recursively converted elements with commas (`null` elements become
empty), objects render as `[object Object]`. -/
def jsToString : JsonValue → String
  | .null => "null"
  | .bool b => if b then "true" else "false"
  | .num n => toString n
  | .str s => s
  | .arr l => String.intercalate "," (jsToStringElems l)
  | .obj _ => "[object Object]"
where
  /-- `Array.prototype.join`'s element conversion. -/
  jsToStringElems : List JsonValue → List String
  | [] => []
  | .null :: vs => "" :: jsToStringElems vs
  | v :: vs => jsToString v :: jsToStringElems vs

/-- Property read used by the click handler after its truthiness guard:
the receiver is known truthy, hence never `null`/`undefined`. -/
def jsPropT : JsonValue → String → Option JsonValue
  | .obj fs, k => fs.lookup k
  | _, _ => none

/-- The target URL:
`(event.notification.data && event.notification.data.url) ?
 event.notification.data.url : "/portal"`, with the resulting value
coerced to a string where the code consumes it (`includes`,
`openWindow`). -/
def clickUrl (d : Option JsonValue) : String :=
  match d with
  | none => "/portal"
  | some v =>
    if jsTruthy (some v) then
      match jsPropT v "url" with
      | some u => if jsTruthy (some u) then jsToString u else "/portal"
      | none => "/portal"
    else "/portal"

/-- An open window-type client: its current URL and whether it exposes
`focus` (every window client does; the code re-checks). -/
structure Client where
  url : String
  canFocus : Bool
deriving DecidableEq, Repr

/-- Observable effects of the click handler, in order. -/
inductive SWAction where
  | closeNotification
  | focus (c : Client)
  | openWindow (url : String)
deriving DecidableEq, Repr

/-- The `for (const client of clientList)` loop: the first client whose
URL contains the target and which exposes `focus`; clients matching the
URL but lacking `focus` are skipped, and the loop continues. -/
def findFocusTarget (url : String) : List Client → Option Client
  | [] => none
  | c :: rest =>
    if strIncludes c.url url && c.canFocus then some c
    else findFocusTarget url rest

/-- The `notificationclick` listener: close the notification, resolve
the target URL, focus the first matching open client, else open a new
window at the target when the platform supports it. `ndata` is
`event.notification.data`, `clients` the window-type client list
(uncontrolled ones included), `openWindowSupported` whether
`clients.openWindow` exists. -/
def notificationClick (ndata : Option JsonValue) (clients : List Client)
    (openWindowSupported : Bool) : List SWAction :=
  let url := clickUrl ndata
  SWAction.closeNotification ::
    (match findFocusTarget url clients with
     | some c => [SWAction.focus c]
     | none => if openWindowSupported then [SWAction.openWindow url] else [])

/-- `event.data.json()` did not produce JSON `null` (the one JSON value
on which the listener's subsequent `data.title` access throws). -/
def jsonNotNull : Option PushEventData → Prop
  | none => True
  | some d => d.json ≠ .ok .null

/-- C3, as stated, is false: a push whose payload is the well-formed
JSON text `"null"` parses to JSON `null`, and the listener's
`data.title` access then throws a `TypeError` (the `try`/`catch` only
guards the `json()` call). -/
theorem pushHandler_throws_on_json_null :
    pushHandler (some ⟨"null", .ok .null⟩) = .error "TypeError" := rfl

/-- C3 (amended): for every push event whose data is absent, non-JSON,
or any JSON value other than `null`, the handler never throws; on JSON
parse failure it shows a notification with the default title and a body
equal to the event's raw text, and with no data at all the body is the
empty string. -/
theorem pushHandler_total_of_jsonNotNull (ed : Option PushEventData) :
    (jsonNotNull ed → ∃ n, pushHandler ed = .ok n)
    ∧ (ed = none →
        pushHandler ed =
          .ok ⟨some (.str defaultTitle), some (.str ""),
               "/static/logo.png", "/static/logo.png", some (.obj [])⟩)
    ∧ (∀ t : String, ed = some ⟨t, .error ()⟩ →
        pushHandler ed =
          .ok ⟨some (.str defaultTitle), some (.str t),
               "/static/logo.png", "/static/logo.png", some (.obj [])⟩) := by
  refine ⟨?_, ?_, ?_⟩
  · intro h
    match ed with
    | none => exact ⟨_, rfl⟩
    | some ⟨t, .error e⟩ => exact ⟨_, rfl⟩
    | some ⟨t, .ok v⟩ =>
      match v with
      | .null => exact absurd rfl h
      | .bool b => exact ⟨_, rfl⟩
      | .num n => exact ⟨_, rfl⟩
      | .str s => exact ⟨_, rfl⟩
      | .arr l => exact ⟨_, rfl⟩
      | .obj fs => exact ⟨_, rfl⟩
  · rintro rfl
    rfl
  · rintro t rfl
    show Except.ok _ = _
    by_cases ht : t = ""
    · subst ht; rfl
    · simp [pushHandler, jsGetProp, jsTruthy, defaultTitle, List.lookup, ht]

/-- C3 witness: a concrete malformed payload degrades to the default
title with the raw text as body. -/
theorem pushHandler_total_witness :
    pushHandler (some ⟨"oops", .error ()⟩) =
      .ok ⟨some (.str defaultTitle), some (.str "oops"),
           "/static/logo.png", "/static/logo.png", some (.obj [])⟩ :=
  (pushHandler_total_of_jsonNotNull (some ⟨"oops", .error ()⟩)).2.2 "oops" rfl

/-- C10, as stated, is false in its consequence "the body is always a
string": a payload whose `body` is the (truthy) number `5` passes it
through unchanged, so the notification's body is a number. -/
theorem pushHandler_body_not_always_string :
    pushHandler (some ⟨"\x7b\"body\":5\x7d", .ok (.obj [("body", .num 5)])⟩) =
      .ok ⟨some (.str defaultTitle), some (.num 5),
           "/static/logo.png", "/static/logo.png", some (.obj [])⟩
    ∧ isJsStr (some (.num 5)) = false := ⟨rfl, rfl⟩

/-- C10 (amended): for every successfully parsed JSON object payload,
each falsy `title`/`body`/`data` field is replaced by its default (the
default title, the empty string, the empty object) and each truthy one
passes through unchanged; hence the notification's title is always
truthy (never the empty string), and its body and data are never absent:
each is either the truthy payload value or its default. -/
theorem pushHandler_defaults_on_falsy_fields
    (fs : List (String × JsonValue)) (txt : String) :
    ∃ n, pushHandler (some ⟨txt, .ok (.obj fs)⟩) = .ok n
      ∧ (jsTruthy (fs.lookup "title") = false → n.title = some (.str defaultTitle))
      ∧ (jsTruthy (fs.lookup "title") = true → n.title = fs.lookup "title")
      ∧ (jsTruthy (fs.lookup "body") = false → n.body = some (.str ""))
      ∧ (jsTruthy (fs.lookup "body") = true → n.body = fs.lookup "body")
      ∧ (jsTruthy (fs.lookup "data") = false → n.data = some (.obj []))
      ∧ (jsTruthy (fs.lookup "data") = true → n.data = fs.lookup "data")
      ∧ jsTruthy n.title = true
      ∧ (jsTruthy n.body = true ∨ n.body = some (.str ""))
      ∧ (jsTruthy n.data = true ∨ n.data = some (.obj [])) := by
  refine ⟨_, rfl, ?_, ?_, ?_, ?_, ?_, ?_, ?_, ?_, ?_⟩
  · intro h; simp [h]
  · intro h; simp [h]
  · intro h; simp [h]
  · intro h; simp [h]
  · intro h; simp [h]
  · intro h; simp [h]
  · cases hc : jsTruthy (fs.lookup "title") with
    | true => simp [hc]
    | false => simp [hc, jsTruthy, defaultTitle]
  · cases hc : jsTruthy (fs.lookup "body") with
    | true => exact Or.inl (by simp [hc])
    | false => exact Or.inr (by simp [hc])
  · cases hc : jsTruthy (fs.lookup "data") with
    | true => exact Or.inl (by simp [hc])
    | false => exact Or.inr (by simp [hc])

/-! ### Base64 decoding lemmas -/

theorem posIn_isSome_mem {l : List Char} {c : Char}
    (h : (posIn l c).isSome = true) : c ∈ l := by
  induction l with
  | nil => simp [posIn] at h
  | cons a as ih =>
    by_cases hca : c = a
    · exact hca ▸ List.mem_cons_self a as
    · apply List.mem_cons_of_mem
      apply ih
      rw [posIn, if_neg hca] at h
      rcases hp : posIn as c with _ | v
      · rw [hp] at h; simp at h
      · simp [hp]

theorem b64Alphabet_props : ∀ c ∈ b64Alphabet,
    isB64Ws c = false ∧ c ≠ '=' ∧ urlChar (stdToUrlChar c) = c := by decide

theorem b64Index_good {c : Char} (h : (b64Index c).isSome = true) :
    isB64Ws c = false ∧ c ≠ '=' ∧ urlChar (stdToUrlChar c) = c :=
  b64Alphabet_props c (posIn_isSome_mem h)

theorem b64Index_pad_eq_none : b64Index '=' = none := by decide

theorem b64Indices_eq_none_of_mem {l : List Char} {c : Char} (hm : c ∈ l)
    (hc : b64Index c = none) : b64Indices l = none := by
  induction l with
  | nil => cases hm
  | cons a as ih =>
    rcases List.mem_cons.mp hm with rfl | h2
    · simp [b64Indices, hc]
    · simp only [b64Indices, ih h2]
      cases b64Index a <;> rfl

theorem b64Indices_isSome {l : List Char}
    (h : ∀ c ∈ l, (b64Index c).isSome = true) :
    (b64Indices l).isSome = true := by
  induction l with
  | nil => rfl
  | cons a as ih =>
    have ha := h a (List.mem_cons_self a as)
    have has := ih (fun c hc => h c (List.mem_cons_of_mem _ hc))
    rcases hA : b64Index a with _ | i
    · rw [hA] at ha; simp at ha
    · rcases hAs : b64Indices as with _ | is
      · rw [hAs] at has; simp at has
      · simp [b64Indices, hA, hAs]

theorem dropEq2_double (r : List Char) : dropEq2 ('=' :: '=' :: r) = r := by
  simp [dropEq2]

theorem dropEq2_single {c : Char} (r : List Char) (hc : c ≠ '=') :
    dropEq2 ('=' :: c :: r) = c :: r := by
  simp [dropEq2, hc]

theorem dropEq2_of_head_ne {c : Char} {r : List Char} (hc : c ≠ '=') :
    dropEq2 (c :: r) = c :: r := by
  cases r <;> simp [dropEq2, hc]

theorem mem_dropEq2 {c : Char} {m : List Char} (hc : c ≠ '=') (hm : c ∈ m) :
    c ∈ dropEq2 m := by
  match m with
  | [] => exact hm
  | [c1] =>
    by_cases h1 : c1 = '='
    · rcases List.mem_singleton.mp hm with rfl
      exact absurd h1 hc
    · simpa [dropEq2, h1] using hm
  | c1 :: c2 :: r =>
    by_cases h1 : c1 = '='
    · by_cases h2 : c2 = '='
      · rcases List.mem_cons.mp hm with rfl | hm2
        · exact absurd h1 hc
        · rcases List.mem_cons.mp hm2 with rfl | hm3
          · exact absurd h2 hc
          · simpa [dropEq2, h1, h2] using hm3
      · rcases List.mem_cons.mp hm with rfl | hm2
        · exact absurd h1 hc
        · simpa [dropEq2, h1, h2] using hm2
    · simpa [dropEq2, h1] using hm

theorem stripPad_mem {c : Char} {l : List Char} (hc : c ≠ '=') (hm : c ∈ l) :
    c ∈ stripPad l := by
  rw [stripPad]
  split
  · exact List.mem_reverse.mpr (mem_dropEq2 hc (List.mem_reverse.mpr hm))
  · exact hm

theorem stripPad_append_replicate {body : List Char} {k : Nat}
    (hnoeq : '=' ∉ body) (hk : k ≤ 2) (hlen : (body.length + k) % 4 = 0) :
    stripPad (body ++ List.replicate k '=') = body := by
  interval_cases k
  · rw [List.replicate_zero, List.append_nil, stripPad, if_pos (by omega)]
    cases hrev : body.reverse with
    | nil =>
      have hb : body = [] := List.reverse_eq_nil_iff.mp hrev
      subst hb; rfl
    | cons c r =>
      have hcb : c ∈ body := List.mem_reverse.mp (hrev ▸ List.mem_cons_self c r)
      have hcne : c ≠ '=' := fun h => hnoeq (h ▸ hcb)
      rw [dropEq2_of_head_ne hcne, ← hrev, List.reverse_reverse]
  · cases hrev : body.reverse with
    | nil =>
      have hb : body = [] := List.reverse_eq_nil_iff.mp hrev
      subst hb; simp at hlen
    | cons c r =>
      have hcb : c ∈ body := List.mem_reverse.mp (hrev ▸ List.mem_cons_self c r)
      have hcne : c ≠ '=' := fun h => hnoeq (h ▸ hcb)
      rw [stripPad, if_pos (by simp; omega),
        show (body ++ List.replicate 1 '=').reverse = '=' :: body.reverse by simp,
        hrev, dropEq2_single r hcne, ← hrev, List.reverse_reverse]
  · rw [stripPad, if_pos (by simp; omega),
      show (body ++ List.replicate 2 '=').reverse = '=' :: '=' :: body.reverse by simp,
      dropEq2_double, List.reverse_reverse]

theorem atobStripped_ends_three {f : List Char} :
    atobStripped (f ++ ['=', '=', '=']) = none := by
  by_cases h0 : (f.length + 3) % 4 = 0
  · have hsp : stripPad (f ++ ['=', '=', '=']) = f ++ ['='] := by
      rw [stripPad, if_pos (by simp; omega),
        show (f ++ ['=', '=', '=']).reverse = '=' :: '=' :: ('=' :: f.reverse) by simp,
        dropEq2_double]
      simp
    rw [atobStripped, hsp]
    have hl : (f ++ ['=']).length % 4 = 2 := by simp; omega
    rw [if_neg (by omega),
      b64Indices_eq_none_of_mem (l := f ++ ['=']) (by simp) b64Index_pad_eq_none]
    rfl
  · have hsp : stripPad (f ++ ['=', '=', '=']) = f ++ ['=', '=', '='] := by
      rw [stripPad, if_neg (by simp; omega)]
    rw [atobStripped, hsp]
    by_cases h1 : (f ++ ['=', '=', '=']).length % 4 = 1
    · rw [if_pos h1]
    · rw [if_neg h1,
        b64Indices_eq_none_of_mem (l := f ++ ['=', '=', '=']) (by simp)
          b64Index_pad_eq_none]
      rfl

/-- C9: for every input string whose length is 1 mod 4, the padding
rule appends three `=` characters; forgiving-base64 removes at most two
of them, so a `=` always survives to the alphabet check and the decode
throws (`none`). -/
theorem urlBase64ToUint8Array_fails_mod_one (s : String)
    (h : s.length % 4 = 1) : urlBase64ToUint8Array s = none := by
  rw [urlBase64ToUint8Array, h]
  have hmap : (s.data ++ List.replicate ((4 - 1) % 4) '=').map urlChar
      = s.data.map urlChar ++ ['=', '=', '='] := by
    rw [List.map_append, List.map_replicate]
    simp [urlChar, List.replicate]
  rw [hmap]
  show atobChars (s.data.map urlChar ++ ['=', '=', '=']) = none
  rw [atobChars, List.filter_append,
    show List.filter (fun c => !isB64Ws c) ['=', '=', '='] = ['=', '=', '='] from rfl]
  exact atobStripped_ends_three

/-- C9 witness: the one-character key `"A"` fails to decode. -/
theorem urlBase64ToUint8Array_fails_mod_one_witness :
    urlBase64ToUint8Array "A" = none :=
  urlBase64ToUint8Array_fails_mod_one "A" (by decide)

/-- C6: decoding the base64url rendering of a standard-base64 string
(padding stripped, `+`/`/` replaced by `-`/`_`) yields the same bytes
as decoding the correctly padded standard string — the source's
pad-and-substitute step reconstructs exactly that string — and the
decode fails (`none`) on input containing a character outside the
base64url alphabet. -/
theorem urlBase64ToUint8Array_roundtrip :
    (∀ body : List Char, (∀ c ∈ body, (b64Index c).isSome = true) →
        body.length % 4 ≠ 1 →
        ∃ bytes,
          urlBase64ToUint8Array (String.mk (body.map stdToUrlChar)) = some bytes ∧
          atob (String.mk (body ++ List.replicate ((4 - body.length % 4) % 4) '='))
            = some bytes) ∧
    (∀ (s : String) (c : Char), c ∈ s.data → isB64Ws c = false → c ≠ '=' →
        urlChar c = c → b64Index c = none → urlBase64ToUint8Array s = none) := by
  constructor
  · intro body hall h4
    have hmap : (body.map stdToUrlChar).map urlChar = body := by
      rw [List.map_map]
      have hpt : ∀ c ∈ body, (urlChar ∘ stdToUrlChar) c = id c :=
        fun c hc => (b64Index_good (hall c hc)).2.2
      rw [List.map_congr_left hpt, List.map_id]
    have hlen : (String.mk (body.map stdToUrlChar)).length = body.length := by
      show (body.map stdToUrlChar).length = body.length
      exact List.length_map _ _
    set k := (4 - body.length % 4) % 4 with hk
    have hstring :
        ((body.map stdToUrlChar).map stdToUrlChar = body) ∨ True := Or.inr trivial
    have hne : '=' ∉ body := fun hmem => (b64Index_good (hall '=' hmem)).2.1 rfl
    have hk2 : k ≤ 2 := by omega
    have hl0 : (body.length + k) % 4 = 0 := by omega
    have hstrip : stripPad (body ++ List.replicate k '=') = body :=
      stripPad_append_replicate hne hk2 hl0
    have hfilter : List.filter (fun c => !isB64Ws c) (body ++ List.replicate k '=')
        = body ++ List.replicate k '=' := by
      rw [List.filter_eq_self]
      intro a ha
      rcases List.mem_append.mp ha with h | h
      · simp [(b64Index_good (hall a h)).1]
      · rcases List.eq_of_mem_replicate h with rfl
        decide
    rcases Option.isSome_iff_exists.mp (b64Indices_isSome hall) with ⟨is, his⟩
    have hcompute : atobChars (body ++ List.replicate k '=') = some (b64decodeBody is) := by
      rw [atobChars, hfilter, atobStripped, hstrip, if_neg h4, his]
      rfl
    refine ⟨b64decodeBody is, ?_, ?_⟩
    · have heq : urlBase64ToUint8Array (String.mk (body.map stdToUrlChar))
          = atobChars (body ++ List.replicate k '=') := by
        rw [urlBase64ToUint8Array]
        show atobChars (((body.map stdToUrlChar)
            ++ List.replicate ((4 - (String.mk (body.map stdToUrlChar)).length % 4) % 4) '=').map urlChar)
          = _
        rw [hlen, List.map_append, hmap, List.map_replicate]
        show atobChars (body ++ List.replicate k (urlChar '=')) = _
        rfl
      rw [heq, hcompute]
    · show atobChars (body ++ List.replicate k '=') = some (b64decodeBody is)
      exact hcompute
  · intro s c hmem hws hneq hurl hnone
    rw [urlBase64ToUint8Array]
    show atobChars ((s.data ++ List.replicate ((4 - s.length % 4) % 4) '=').map urlChar)
      = none
    rw [atobChars]
    have h1 : c ∈ (s.data ++ List.replicate ((4 - s.length % 4) % 4) '=').map urlChar :=
      List.mem_map.mpr ⟨c, List.mem_append_left _ hmem, hurl⟩
    have h2 : c ∈ List.filter (fun c => !isB64Ws c)
        ((s.data ++ List.replicate ((4 - s.length % 4) % 4) '=').map urlChar) :=
      List.mem_filter.mpr ⟨h1, by simp [hws]⟩
    have h3 := stripPad_mem hneq h2
    rw [atobStripped]
    split
    · rfl
    · rw [b64Indices_eq_none_of_mem h3 hnone]
      rfl

/-- C6 witness: `"TWE"` (base64url, one padding char missing) decodes
to the same bytes as `"TWE="`, and a string containing `!` fails. -/
theorem urlBase64ToUint8Array_roundtrip_witness :
    (∃ bytes,
      urlBase64ToUint8Array (String.mk (['T', 'W', 'E'].map stdToUrlChar)) = some bytes ∧
      atob (String.mk (['T', 'W', 'E']
        ++ List.replicate ((4 - ['T', 'W', 'E'].length % 4) % 4) '=')) = some bytes) ∧
    urlBase64ToUint8Array "ab!c" = none := by
  constructor
  · exact urlBase64ToUint8Array_roundtrip.1 ['T', 'W', 'E'] (by decide) (by decide)
  · exact urlBase64ToUint8Array_roundtrip.2 "ab!c" '!' (by decide) (by decide)
      (by decide) (by decide) (by decide)

/-! ### Subscription manager theorems -/

/-- C7: with no service-worker support the worker is never registered,
and `disable` resolves `true` with an unchanged world and an empty
effect trace — in particular no POST is made. -/
theorem disable_without_registration (w : World) (h : w.swSupported = false) :
    disable w = (.ok true, w, []) := by
  simp [disable, registerSW, h]

/-- C7 witness. -/
theorem disable_without_registration_witness :
    disable ⟨false, "denied", none, ⟨"e", "p", "a"⟩, fun _ => ⟨200, "", none⟩⟩
      = (.ok true, ⟨false, "denied", none, ⟨"e", "p", "a"⟩, fun _ => ⟨200, "", none⟩⟩, []) :=
  disable_without_registration _ rfl

/-- C8: `enable` fails fast — without worker support it throws
"Service Worker not supported" (where `registerSW` alone returns `null`
and no error), and when permission is not granted it throws
"Notifications permission not granted" with a trace containing no
subscription lookup, creation, or network call. -/
theorem enable_fails_fast (w : World) (key : String) :
    (w.swSupported = false →
      registerSW w = (none, w, []) ∧
      enable key w = (.error "Service Worker not supported", w, [])) ∧
    (w.swSupported = true → w.permission ≠ "granted" →
      enable key w = (.error "Notifications permission not granted", w,
        [Ev.register, Ev.requestPermission])) := by
  constructor
  · intro h
    exact ⟨by simp [registerSW, h], by simp [enable, subscribePush, registerSW, h]⟩
  · intro hs hp
    simp [enable, subscribePush, registerSW, hs, hp]

/-- C8 witness: an unsupported platform and a denied permission, at
concrete worlds. -/
theorem enable_fails_fast_witness :
    enable "k" ⟨false, "granted", none, ⟨"e", "p", "a"⟩, fun _ => ⟨200, "", none⟩⟩
      = (.error "Service Worker not supported",
         ⟨false, "granted", none, ⟨"e", "p", "a"⟩, fun _ => ⟨200, "", none⟩⟩, []) ∧
    enable "k" ⟨true, "denied", none, ⟨"e", "p", "a"⟩, fun _ => ⟨200, "", none⟩⟩
      = (.error "Notifications permission not granted",
         ⟨true, "denied", none, ⟨"e", "p", "a"⟩, fun _ => ⟨200, "", none⟩⟩,
         [Ev.register, Ev.requestPermission]) :=
  ⟨((enable_fails_fast _ "k").1 rfl).2,
   (enable_fails_fast _ "k").2 rfl (by decide)⟩

/-- C1: with an active subscription, `enable` leaves the platform state
unchanged and triggers no `subscribe`; calling it again triggers no
`subscribe` either, and both calls POST exactly the existing
subscription to `/push/subscribe`, so the two bodies are equal. -/
theorem enable_idempotent (w : World) (key : String) (s : Subscription)
    (hsw : w.swSupported = true) (hperm : w.permission = "granted")
    (hsub : w.sub = some s) :
    subscribed (enable key w).2.2 = false ∧
    (enable key w).2.1 = w ∧
    subscribed (enable key ((enable key w).2.1)).2.2 = false ∧
    postedBodies "/push/subscribe" (enable key ((enable key w).2.1)).2.2
      = postedBodies "/push/subscribe" (enable key w).2.2 ∧
    postedBodies "/push/subscribe" (enable key w).2.2 = [s] := by
  have hsp : subscribePush key w
      = (.ok s, w, [Ev.register, Ev.requestPermission, Ev.getSubscription]) := by
    simp [subscribePush, registerSW, hsw, hperm, hsub]
  cases hok : respOk (w.respond "/push/subscribe") with
  | true =>
    have he : enable key w = (.ok true, w,
        [Ev.register, Ev.requestPermission, Ev.getSubscription,
         Ev.post "/push/subscribe" s]) := by
      simp [enable, hsp, postJSON, hok, Except.map]
    simp [he, subscribed, postedBodies]
  | false =>
    have he : enable key w = (.error (if (w.respond "/push/subscribe").text = ""
          then "Request failed" else (w.respond "/push/subscribe").text), w,
        [Ev.register, Ev.requestPermission, Ev.getSubscription,
         Ev.post "/push/subscribe" s]) := by
      simp [enable, hsp, postJSON, hok, Except.map]
    simp [he, subscribed, postedBodies]

/-- C1 witness. -/
theorem enable_idempotent_witness :
    subscribed (enable "k" ⟨true, "granted", some ⟨"e", "p", "a"⟩, ⟨"f", "q", "b"⟩,
        fun _ => ⟨200, "", none⟩⟩).2.2 = false ∧
    postedBodies "/push/subscribe"
        (enable "k" ⟨true, "granted", some ⟨"e", "p", "a"⟩, ⟨"f", "q", "b"⟩,
          fun _ => ⟨200, "", none⟩⟩).2.2 = [⟨"e", "p", "a"⟩] := by
  obtain ⟨h1, -, -, -, h5⟩ :=
    enable_idempotent ⟨true, "granted", some ⟨"e", "p", "a"⟩, ⟨"f", "q", "b"⟩,
      fun _ => ⟨200, "", none⟩⟩ "k" ⟨"e", "p", "a"⟩ rfl rfl rfl
  exact ⟨h1, h5⟩

/-- C2: with an existing subscription, `disable` POSTs it to
`/push/unsubscribe` before any platform revocation; on server success
the trace is exactly POST-then-revoke and the subscription is cleared;
on a non-2xx response the error (body text, or the generic fallback)
propagates, the world — in particular the platform subscription — is
unchanged, and no `pushUnsubscribe` effect occurs. -/
theorem disable_server_ack_before_revoke (w : World) (s : Subscription)
    (hsw : w.swSupported = true) (hsub : w.sub = some s) :
    (respOk (w.respond "/push/unsubscribe") = true →
      disable w = (.ok true, { w with sub := none },
        [Ev.register, Ev.getSubscription, Ev.post "/push/unsubscribe" s,
         Ev.pushUnsubscribe])) ∧
    (respOk (w.respond "/push/unsubscribe") = false →
      disable w = (.error (if (w.respond "/push/unsubscribe").text = ""
          then "Request failed" else (w.respond "/push/unsubscribe").text), w,
        [Ev.register, Ev.getSubscription, Ev.post "/push/unsubscribe" s]) ∧
      (disable w).2.1.sub = some s ∧
      Ev.pushUnsubscribe ∉ (disable w).2.2) := by
  constructor
  · intro hok
    simp [disable, registerSW, postJSON, hsw, hsub, hok]
  · intro hok
    have hd : disable w = (.error (if (w.respond "/push/unsubscribe").text = ""
        then "Request failed" else (w.respond "/push/unsubscribe").text), w,
        [Ev.register, Ev.getSubscription, Ev.post "/push/unsubscribe" s]) := by
      simp [disable, registerSW, postJSON, hsw, hsub, hok]
    refine ⟨hd, ?_, ?_⟩
    · rw [hd]; exact hsub
    · rw [hd]; simp

/-- C2 witness: a failing unsubscribe POST leaves the subscription in
place; a succeeding one revokes it after the POST. -/
theorem disable_server_ack_before_revoke_witness :
    (disable ⟨true, "granted", some ⟨"e", "p", "a"⟩, ⟨"f", "q", "b"⟩,
        fun _ => ⟨500, "boom", none⟩⟩).2.1.sub = some ⟨"e", "p", "a"⟩ ∧
    disable ⟨true, "granted", some ⟨"e", "p", "a"⟩, ⟨"f", "q", "b"⟩,
        fun _ => ⟨204, "", none⟩⟩
      = (.ok true, ⟨true, "granted", none, ⟨"f", "q", "b"⟩, fun _ => ⟨204, "", none⟩⟩,
         [Ev.register, Ev.getSubscription,
          Ev.post "/push/unsubscribe" ⟨"e", "p", "a"⟩, Ev.pushUnsubscribe]) := by
  constructor
  · exact ((disable_server_ack_before_revoke
      ⟨true, "granted", some ⟨"e", "p", "a"⟩, ⟨"f", "q", "b"⟩,
        fun _ => ⟨500, "boom", none⟩⟩ ⟨"e", "p", "a"⟩ rfl rfl).2 rfl).2.1
  · exact (disable_server_ack_before_revoke
      ⟨true, "granted", some ⟨"e", "p", "a"⟩, ⟨"f", "q", "b"⟩,
        fun _ => ⟨204, "", none⟩⟩ ⟨"e", "p", "a"⟩ rfl rfl).1 rfl

/-- C4: `res.ok` is exactly a 2xx status; on success `postJSON` returns
JSON (or the empty object), on any non-2xx it throws the response body
text, falling back to "Request failed" when the body is empty; the
error message propagates verbatim out of `enable` (a 400 included). -/
theorem postJSON_status_handling (w : World) (url : String) (d : Subscription)
    (key : String) (s : Subscription) :
    (∀ r : HttpResp, respOk r = true ↔ 200 ≤ r.status ∧ r.status ≤ 299) ∧
    (respOk (w.respond url) = true →
      ∃ j, postJSON url d w = (.ok j, w, [Ev.post url d])) ∧
    (respOk (w.respond url) = false →
      postJSON url d w = (.error (if (w.respond url).text = "" then "Request failed"
        else (w.respond url).text), w, [Ev.post url d])) ∧
    (w.swSupported = true → w.permission = "granted" → w.sub = some s →
      respOk (w.respond "/push/subscribe") = false →
      (enable key w).1 = .error (if (w.respond "/push/subscribe").text = ""
        then "Request failed" else (w.respond "/push/subscribe").text)) := by
  refine ⟨?_, ?_, ?_, ?_⟩
  · intro r
    simp [respOk, Bool.and_eq_true, decide_eq_true_eq]
  · intro hok
    exact ⟨(w.respond url).jsonBody.getD (.obj []), by simp [postJSON, hok]⟩
  · intro hok
    simp [postJSON, hok]
  · intro hsw hperm hsub hok
    have hsp : subscribePush key w
        = (.ok s, w, [Ev.register, Ev.requestPermission, Ev.getSubscription]) := by
      simp [subscribePush, registerSW, hsw, hperm, hsub]
    simp [enable, hsp, postJSON, hok, Except.map]

/-- C4 witness: a 400 with body `"bad key"` becomes exactly that error;
an empty 500 body becomes the generic message. -/
theorem postJSON_status_handling_witness :
    (enable "k" ⟨true, "granted", some ⟨"e", "p", "a"⟩, ⟨"f", "q", "b"⟩,
        fun _ => ⟨400, "bad key", none⟩⟩).1 = .error "bad key" ∧
    postJSON "/push/subscribe" ⟨"e", "p", "a"⟩
        ⟨true, "granted", some ⟨"e", "p", "a"⟩, ⟨"f", "q", "b"⟩,
          fun _ => ⟨500, "", none⟩⟩
      = (.error "Request failed",
         ⟨true, "granted", some ⟨"e", "p", "a"⟩, ⟨"f", "q", "b"⟩,
           fun _ => ⟨500, "", none⟩⟩,
         [Ev.post "/push/subscribe" ⟨"e", "p", "a"⟩]) := by
  constructor
  · have h := (postJSON_status_handling
      ⟨true, "granted", some ⟨"e", "p", "a"⟩, ⟨"f", "q", "b"⟩,
        fun _ => ⟨400, "bad key", none⟩⟩
      "/push/subscribe" ⟨"e", "p", "a"⟩ "k" ⟨"e", "p", "a"⟩).2.2.2
      rfl rfl rfl (by decide)
    simpa using h
  · have h := (postJSON_status_handling
      ⟨true, "granted", some ⟨"e", "p", "a"⟩, ⟨"f", "q", "b"⟩,
        fun _ => ⟨500, "", none⟩⟩
      "/push/subscribe" ⟨"e", "p", "a"⟩ "k" ⟨"e", "p", "a"⟩).2.2.1
      (by decide)
    simpa using h

/-! ### Notification click theorems -/

theorem findFocusTarget_mem {url : String} {clients : List Client}
    (hfocus : ∀ c ∈ clients, c.canFocus = true)
    (hex : ∃ c ∈ clients, strIncludes c.url url = true) :
    ∃ c ∈ clients, strIncludes c.url url = true ∧
      findFocusTarget url clients = some c := by
  induction clients with
  | nil => rcases hex with ⟨c, hc, -⟩; cases hc
  | cons a as ih =>
    by_cases ha : strIncludes a.url url = true
    · refine ⟨a, List.mem_cons_self a as, ha, ?_⟩
      simp [findFocusTarget, ha, hfocus a (List.mem_cons_self a as)]
    · have hex2 : ∃ c ∈ as, strIncludes c.url url = true := by
        rcases hex with ⟨c, hc, hinc⟩
        rcases List.mem_cons.mp hc with rfl | hc2
        · exact absurd hinc ha
        · exact ⟨c, hc2, hinc⟩
      obtain ⟨c, hc, hinc, hfind⟩ :=
        ih (fun c hc => hfocus c (List.mem_cons_of_mem _ hc)) hex2
      refine ⟨c, List.mem_cons_of_mem _ hc, hinc, ?_⟩
      simpa [findFocusTarget, ha] using hfind

theorem findFocusTarget_none {url : String} {clients : List Client}
    (hall : ∀ c ∈ clients, strIncludes c.url url = false) :
    findFocusTarget url clients = none := by
  induction clients with
  | nil => rfl
  | cons a as ih =>
    simp [findFocusTarget, hall a (List.mem_cons_self a as)]
    exact ih (fun c hc => hall c (List.mem_cons_of_mem _ hc))

/-- C5: the click handler closes the notification first; the target URL
is `data.url` when present (a truthy value), otherwise "/portal"; if
some open window client's URL contains the target as a substring the
first such client is focused and no window is opened, otherwise a new
window opens at the target exactly when the platform supports it.
(Window clients always expose `focus`; the hypothesis records that
platform guarantee.) -/
theorem notificationClick_routes (ndata : Option JsonValue)
    (clients : List Client) (ows : Bool)
    (hfocus : ∀ c ∈ clients, c.canFocus = true) :
    ((notificationClick ndata clients ows).head?
        = some SWAction.closeNotification) ∧
    (∀ fs u, ndata = some (.obj fs) → fs.lookup "url" = some (.str u) →
      u ≠ "" → clickUrl ndata = u) ∧
    (∀ v, ndata = some v → jsPropT v "url" = none → clickUrl ndata = "/portal") ∧
    (ndata = none → clickUrl ndata = "/portal") ∧
    ((∃ c ∈ clients, strIncludes c.url (clickUrl ndata) = true) →
      ∃ c ∈ clients, strIncludes c.url (clickUrl ndata) = true ∧
        notificationClick ndata clients ows
          = [SWAction.closeNotification, SWAction.focus c]) ∧
    ((∀ c ∈ clients, strIncludes c.url (clickUrl ndata) = false) →
      notificationClick ndata clients ows
        = SWAction.closeNotification ::
          (if ows then [SWAction.openWindow (clickUrl ndata)] else [])) := by
  refine ⟨rfl, ?_, ?_, by rintro rfl; rfl, ?_, ?_⟩
  · rintro fs u rfl hu hne
    simp [clickUrl, jsPropT, hu, jsTruthy, hne, jsToString]
  · rintro v rfl hnone
    simp [clickUrl, hnone]
  · intro hex
    obtain ⟨c, hc, hinc, hfind⟩ := findFocusTarget_mem hfocus hex
    exact ⟨c, hc, hinc, by simp [notificationClick, hfind]⟩
  · intro hall
    simp [notificationClick, findFocusTarget_none hall]

/-- C5 witness: a matching open client is focused and no window opens;
with no clients a window opens at the resolved "/portal" target. -/
theorem notificationClick_routes_witness :
    notificationClick (some (.obj [("url", .str "/portal")]))
        [⟨"https://x.example/portal", true⟩] true
      = [SWAction.closeNotification,
         SWAction.focus ⟨"https://x.example/portal", true⟩] ∧
    notificationClick (some (.obj [("url", .str "/portal")])) [] true
      = [SWAction.closeNotification, SWAction.openWindow "/portal"] ∧
    clickUrl (some (.obj [("url", .str "/portal")])) = "/portal" := by
  have hurl : clickUrl (some (.obj [("url", .str "/portal")])) = "/portal" :=
    (notificationClick_routes (some (.obj [("url", .str "/portal")])) [] true
      (by simp)).2.1 [("url", .str "/portal")] "/portal" rfl rfl (by decide)
  refine ⟨?_, ?_, hurl⟩
  · obtain ⟨c, hc, -, heq⟩ :=
      (notificationClick_routes (some (.obj [("url", .str "/portal")]))
        [⟨"https://x.example/portal", true⟩] true (by simp)).2.2.2.2.1
        ⟨⟨"https://x.example/portal", true⟩, by simp, by rw [hurl]; rfl⟩
    rcases List.mem_singleton.mp hc with rfl
    exact heq
  · have h :=
      (notificationClick_routes (some (.obj [("url", .str "/portal")])) [] true
        (by simp)).2.2.2.2.2 (by simp)
    simpa [hurl] using h

/-- C10 witness: a concrete object payload with an empty-string title
gets the default title. -/
theorem pushHandler_defaults_witness :
    ∃ n, pushHandler (some ⟨"\x7b\"title\":\"\"\x7d",
        .ok (.obj [("title", .str "")])⟩) = .ok n
      ∧ n.title = some (.str defaultTitle) := by
  obtain ⟨n, h1, h2, -⟩ :=
    pushHandler_defaults_on_falsy_fields [("title", .str "")] "\x7b\"title\":\"\"\x7d"
  exact ⟨n, h1, h2 (by decide)⟩

end MN
